import Mathlib

/-!
# Verification of the virtualenv reuse-decision engine (`venv.py`)

The source is a single Python class `VirtualenvKeeper` that caches a built
virtualenv ("Snapshot") and decides on each `ensure()` call whether to restore
it or rebuild from scratch.

Modelling choices:
* Python strings are lists of characters (`Str`); file contents are raw
  character lists.
* The Python library helpers the source relies on (`str.split`, `str.strip`,
  `"\n".join`, `os.path.basename`, `dict`, `sorted`, `set` comparison,
  `difflib.unified_diff`, `readlines`) are embedded as executable functions
  below.
* External subprocesses (the pip queries and the `gmake` provisioning call)
  and glob expansion are boundary collaborators: their observable outputs are
  oracle inputs (`Ext`, and the file listings stored in `FS`).
* The filesystem state the keeper touches is the record `FS`; `ensure` maps an
  oracle and a state to a new state, the Python return value, the branch taken
  and the trace of side-effecting calls, or to a propagated exception.
-/

namespace Venv

/-- Python strings, modelled as lists of characters. -/
abbrev Str := List Char

/-! ## Python string/library primitives used by `venv.py` -/

/-- Python `s.split(sep)` for a one-character separator: `"".split` is `[""]`,
and every separator occurrence produces a (possibly empty) piece. -/
def splitOnC (sep : Char) : Str → List Str
  | [] => [[]]
  | c :: cs =>
    match splitOnC sep cs with
    | [] => [[]]
    | p :: ps => if c = sep then [] :: p :: ps else (c :: p) :: ps

/-- Python `sep.join(pieces)` for a one-character separator. -/
def intercalateC (sep : Char) : List Str → Str
  | [] => []
  | [x] => x
  | x :: y :: ys => x ++ sep :: intercalateC sep (y :: ys)

/-- Python `s.strip()` (no argument): remove leading and trailing whitespace. -/
def pyStrip (l : Str) : Str :=
  ((l.dropWhile Char.isWhitespace).reverse.dropWhile Char.isWhitespace).reverse

/-- Python `s.strip(c)` for a one-character argument: remove leading and
trailing occurrences of exactly that character. -/
def stripChar (c : Char) (l : Str) : Str :=
  ((l.dropWhile (· == c)).reverse.dropWhile (· == c)).reverse

/-- `os.path.basename`: the final `/`-separated component of the path. -/
def basename (p : Str) : Str :=
  (splitOnC '/' p).getLastD []

/-- Python `set(a) == set(b)`: the two lists hold the same elements.
`bool(set(a) ^ set(b))` is the negation of this. -/
def setEqL (a b : List Str) : Bool :=
  a.all (fun x => b.contains x) && b.all (fun x => a.contains x)

/-- Python `dict(pairs)`: keys keep first-insertion order, a later binding of
an existing key overwrites its value. -/
def pyDictInsert (m : List (Str × Str)) (kv : Str × Str) : List (Str × Str) :=
  if m.any (fun p => p.1 == kv.1) then
    m.map (fun p => if p.1 == kv.1 then (p.1, kv.2) else p)
  else m ++ [kv]

/-- Python `dict(pairs)` over an association list. -/
def pyDict (l : List (Str × Str)) : List (Str × Str) :=
  l.foldl pyDictInsert []

/-- Python `f.readlines()` followed by `.strip()` on each line, as performed
when reading back `outdated.txt`.  `readlines` splits after every newline and
keeps the terminator on each line; there is no final empty line.  Since every
line is immediately stripped, the terminators vanish, so this equals splitting
on newlines, dropping a trailing empty piece, and stripping each piece. -/
def pyReadLinesStripped (content : Str) : List Str :=
  let parts := splitOnC '\n' content
  (if parts.getLastD [] = [] then parts.dropLast else parts).map pyStrip

/-! ## The outdated-package line pattern

`_get_outdated_pkgs` keeps the stdout lines matching
`re.search(r'^([^\s]+ \(Current:.+? Latest:.+?)\)$', line)`.
For a line containing no newline (every input line comes from a `split("\n")`)
this regex matches iff the line decomposes as
`w ++ " (Current:" ++ x ++ " Latest:" ++ y ++ ")"` with `w` a nonempty run of
non-whitespace characters, `x, y` nonempty and newline-free.  Since the
character after `w` must be a space, `w` is exactly the maximal non-whitespace
prefix, so the decomposition can be checked deterministically. -/

/-- The literal `" (Current:"` of the outdated-package regex. -/
def litCurrent : Str := " (Current:".data

/-- The literal `" Latest:"` of the outdated-package regex. -/
def litLatest : Str := " Latest:".data

/-- Does `r` decompose as `x ++ " Latest:" ++ y` with `x`, `y` nonempty?
(This realizes the `.+? Latest:.+?` part of the regex.) -/
def hasProperLatest (r : Str) : Bool :=
  (List.range (r.length + 1)).any fun i =>
    decide (0 < i) && litLatest.isPrefixOf (r.drop i) &&
      decide (i + litLatest.length < r.length)

/-- `re.search(r'^([^\s]+ \(Current:.+? Latest:.+?)\)$', line)` succeeds, for a
line that contains no newline. -/
def matchesOutdated (l : Str) : Bool :=
  let w := l.takeWhile (fun c => !c.isWhitespace)
  let rest := l.dropWhile (fun c => !c.isWhitespace)
  !w.isEmpty && litCurrent.isPrefixOf rest &&
    (let r := rest.drop litCurrent.length
     !r.isEmpty && (r.getLastD ' ' = ')') &&
       (let r' := r.dropLast
        r'.all (fun c => !(c == '\n')) && hasProperLatest r'))

/-! ## Python `sorted` on strings (lexicographic by code point) -/

/-- Python string `<=`: lexicographic comparison by code point. -/
def strLe : Str → Str → Bool
  | [], _ => true
  | _ :: _, [] => false
  | x :: xs, y :: ys => if x = y then strLe xs ys else decide (x < y)

/-- Insert into a `strLe`-sorted list. -/
def insertLe (x : Str) : List Str → List Str
  | [] => [x]
  | y :: ys => if strLe x y then x :: y :: ys else y :: insertLe x ys

/-- Python `sorted` (insertion sort; Python's sort is a stable sort and equal
strings are identical, so the result list is the same). -/
def sortStrs : List Str → List Str
  | [] => []
  | x :: xs => insertLe x (sortStrs xs)

/-! ## Data model

A directory tree is a flat listing of `(path, contents)` pairs; a `Snapshot`
is the content of the saved-venv directory (`full_saved_venv_path`): the
copied environment tree, the flat copies of the requirement files (keyed by
their base filename in the flat directory), and the optional `outdated.txt`.
The keeper's filesystem view `FS` holds the current glob results in the
project directory (`cwdFiles`, in pattern order, path and contents), the
optional snapshot (`os.path.exists(full_saved_venv_path)` is its presence),
and the live virtualenv tree at `full_new_virtualenv_path`. -/

/-- A directory tree, flattened to `(relative path, file contents)` pairs. -/
abbrev Tree := List (Str × Str)

/-- The saved snapshot directory's content. -/
structure Snapshot where
  /-- the copied virtualenv tree -/
  tree : Tree
  /-- flat copies of the requirement files: the glob results
  `(base filename, contents)` inside the saved directory -/
  rfiles : List (Str × Str)
  /-- the recorded `outdated.txt` contents, `none` if the file is absent -/
  outdated : Option Str
deriving DecidableEq

/-- The filesystem state visible to `VirtualenvKeeper`. -/
structure FS where
  /-- current glob results of the requirement patterns in the project
  directory: `(relative path, contents)` in pattern order -/
  cwdFiles : List (Str × Str)
  /-- the snapshot directory at `full_saved_venv_path`, if present -/
  snap : Option Snapshot
  /-- the live virtualenv at `full_new_virtualenv_path`, if present -/
  live : Option Tree
deriving DecidableEq

/-- Oracle for the external collaborators invoked during one `ensure()` run:
the decoded stdout of the two pip `list -o` queries (against the saved venv at
check time, against the live venv at save time), and the provisioning call
`subprocess.call([gmake, ...])`: its exit code, the environment it materializes
on success, and whatever partial tree it leaves at the target on failure.
The pip version probe is part of the subprocess boundary: its effect is folded
into the stdout the pip query produces. -/
structure Ext where
  /-- stdout of `pip list -o` run against the saved venv (validity check) -/
  pipStdoutSaved : Str
  /-- stdout of `pip list -o` run against the live venv (at save time) -/
  pipStdoutLive : Str
  /-- exit code of the provisioning `subprocess.call` -/
  buildRet : Int
  /-- the complete environment the tool materializes when it succeeds -/
  buildTree : Tree
  /-- the partial tree left at the target when the tool fails -/
  buildFailLeftover : Option Tree
deriving DecidableEq

/-- Python values, as far as `ensure()`'s return value is concerned. -/
inductive PyVal where
  | none
  | int (n : Int)
  | str (s : Str)
deriving DecidableEq

/-- Exceptions that can escape the embedded code: the `IOError` raised by
`open(<saved>/outdated.txt)` when the file is absent. -/
inductive VErr where
  | missingOutdatedFile
deriving DecidableEq

/-- Side-effecting calls made by `ensure()`, in order. -/
inductive Ev where
  /-- `shutil.rmtree(full_new_virtualenv_path)` -/
  | removeActual
  /-- the provisioning `subprocess.call([gmake, ...])` -/
  | buildInvoke
  /-- `shutil.rmtree(full_saved_venv_path)` (`_remove_saved_venv`) -/
  | removeSaved
  /-- `_save()`: copy the live venv, the requirement files and the outdated
  report into the saved directory -/
  | saveSnap
  /-- `_copy_venv()`: remove the live venv and copy the snapshot into it -/
  | restoreSnap
deriving DecidableEq

/-- Which branch of `ensure()` ran. -/
inductive EnsurePath where
  | reuse
  | rebuildOk
  | rebuildFail
deriving DecidableEq

/-- Result of a normally-terminating `ensure()` run: the final filesystem
state, the Python return value, the branch taken, and the event trace. -/
structure EnsureOut where
  fs : FS
  ret : PyVal
  path : EnsurePath
  events : List Ev
deriving DecidableEq

/-! ## The embedded `VirtualenvKeeper` operations -/

/-- The configured `save_venv_dir`, `venv` and `project` names; the concrete
values are irrelevant to the logic, only the path shape matters. -/
def saveVenvDir : Str := "/data/save".data

/-- The configured virtualenv folder name. -/
def venvName : Str := "virtualenv".data

/-- The configured project name. -/
def projectName : Str := "proj".data

/-- `full_saved_venv_path`:
`os.path.join(save_venv_dir, '{venv}_{project}'.format(...))`. -/
def fullSavedVenvPath : Str := saveVenvDir ++ '/' :: (venvName ++ '_' :: projectName)

/-- `_collect_rfiles(from_path=full_saved_venv_path)`: glob the requirement
patterns inside the saved directory; every stored requirement file is listed
by its path `full_saved_venv_path/<name>`. -/
def collectSavedPaths (snap : Snapshot) : List Str :=
  snap.rfiles.map (fun nc => fullSavedVenvPath ++ '/' :: nc.1)

/-- `_collect_rfiles()` with the default `from_path=''`: the current glob
results (relative paths). -/
def collectCwdPaths (fs : FS) : List Str :=
  fs.cwdFiles.map (fun pc => pc.1)

/-- `open(path).readlines()` for a current (relative-path) file; the branch in
which this runs guarantees the file exists, so the default is never used. -/
def readCwd (fs : FS) (p : Str) : Str :=
  ((fs.cwdFiles.find? (fun pc => pc.1 == p)).map (fun pc => pc.2)).getD []

/-- `open(path).readlines()` for a file stored in the saved directory,
addressed by its full path `full_saved_venv_path/<name>`. -/
def readSavedByPath (snap : Snapshot) (p : Str) : Str :=
  ((snap.rfiles.find? (fun nc => fullSavedVenvPath ++ '/' :: nc.1 == p)).map
    (fun nc => nc.2)).getD []

/-- `''.join(difflib.unified_diff(new_lines, old_lines))` is nonempty.
`unified_diff` emits output exactly when the two line sequences differ, and
`readlines` is injective on file contents (concatenating the lines restores
the content), so the joined diff is nonempty iff the line splittings of the
raw contents differ. -/
def unifiedDiffNonempty (newContent oldContent : Str) : Bool :=
  !(splitOnC '\n' newContent == splitOnC '\n' oldContent)

/-- `_requires_has_diff()`: build `dict(map(lambda f: (basename(f), f),
old_files))`; if `set(keys) != set(new_files)` report a structural change,
otherwise diff each `(key, old path)` pair, reading the key as the current
file and the value as the stored file. -/
def requiresHasDiff (fs : FS) (snap : Snapshot) : Bool :=
  let old_files := collectSavedPaths snap
  let new_files := collectCwdPaths fs
  let m := pyDict (old_files.map (fun f => (basename f, f)))
  if setEqL (m.map (fun kv => kv.1)) new_files then
    m.any (fun kv => unifiedDiffNonempty (readCwd fs kv.1) (readSavedByPath snap kv.2))
  else true

/-- `_get_outdated_pkgs`: split the pip stdout on newlines, keep the lines
matching the outdated-package regex (each stripped of newline characters,
a no-op on split lines), and sort them. -/
def getOutdatedPkgs (raw : Str) : List Str :=
  sortStrs (((splitOnC '\n' raw).filter matchesOutdated).map (stripChar '\n'))

/-- `_packages_updated()`: query the outdated packages of the saved venv,
read `outdated.txt` back (raising `IOError` if it is absent), and report
whether the symmetric difference of the two line sets is nonempty. -/
def packagesUpdated (pipRaw : Str) (snap : Snapshot) : Except VErr Bool :=
  match snap.outdated with
  | Option.none => Except.error VErr.missingOutdatedFile
  | Option.some content =>
      Except.ok (!(setEqL (pyReadLinesStripped content) (getOutdatedPkgs pipRaw)))

/-- `_venv_not_changed()`: `not (self._requires_has_diff() or
self._packages_updated())`, with Python's short-circuiting `or`: when the
requirement files differ, `_packages_updated` (and its `open`) never runs. -/
def venvNotChanged (ext : Ext) (fs : FS) (snap : Snapshot) : Except VErr Bool :=
  if requiresHasDiff fs snap then Except.ok false
  else
    match packagesUpdated ext.pipStdoutSaved snap with
    | Except.error e => Except.error e
    | Except.ok b => Except.ok (!b)

/-- `shutil.ignore_patterns('*.pyc')` applied by the copytree calls: drop the
files whose base filename ends in `.pyc`. -/
def copyTreeNoPyc (t : Tree) : Tree :=
  t.filter (fun f => !(".pyc".data.isSuffixOf (basename f.1)))

/-- `_save()`: copy the live tree (here the freshly built one) into the saved
directory, copy every current requirement file flat by base filename
(`shutil.copy(f, dest)`, a later copy overwriting an earlier one of the same
name), and write `"\n".join(outdated report of the live venv)` to
`outdated.txt`. -/
def doSave (ext : Ext) (fs : FS) (t : Tree) : FS :=
  { fs with
    snap := Option.some
      { tree := copyTreeNoPyc t
        rfiles := pyDict (fs.cwdFiles.map (fun pc => (basename pc.1, pc.2)))
        outdated := Option.some (intercalateC '\n' (getOutdatedPkgs ext.pipStdoutLive)) } }

/-- The `else` branch of `ensure()`: `_remove_actual_venv()`;
`return_code = _create_new_venv()` (the provisioning call, which leaves either
the built environment or a failure leftover at the live path);
`_remove_saved_venv()`; then `_save()` if `not return_code`, else
`_remove_actual_venv()` again. -/
def rebuild (ext : Ext) (fs : FS) : EnsureOut :=
  let fs1 : FS := { fs with live := Option.none }
  let fs2 : FS :=
    { fs1 with
      live := if ext.buildRet == 0 then Option.some ext.buildTree
              else ext.buildFailLeftover }
  let fs3 : FS := { fs2 with snap := Option.none }
  if ext.buildRet == 0 then
    { fs := doSave ext fs3 ext.buildTree
      ret := PyVal.none
      path := EnsurePath.rebuildOk
      events := [Ev.removeActual, Ev.buildInvoke, Ev.removeSaved, Ev.saveSnap] }
  else
    { fs := { fs3 with live := Option.none }
      ret := PyVal.none
      path := EnsurePath.rebuildFail
      events := [Ev.removeActual, Ev.buildInvoke, Ev.removeSaved, Ev.removeActual] }

/-- `ensure()`: `if self._saved_venv_exists() and self._venv_not_changed():
self._copy_venv()` (restore: remove the live venv and copy the snapshot tree
into it) `else:` rebuild.  Python's `and` short-circuits, so the validity
check only runs when the snapshot exists; an exception raised by the check
propagates out. -/
def ensure (ext : Ext) (fs : FS) : Except VErr EnsureOut :=
  match fs.snap with
  | Option.some snap =>
      match venvNotChanged ext fs snap with
      | Except.error e => Except.error e
      | Except.ok true =>
          Except.ok
            { fs := { fs with live := Option.some (copyTreeNoPyc snap.tree) }
              ret := PyVal.none
              path := EnsurePath.reuse
              events := [Ev.restoreSnap] }
      | Except.ok false => Except.ok (rebuild ext fs)
  | Option.none => Except.ok (rebuild ext fs)



/-! ## Lemmas about the string primitives -/

theorem splitOnC_ne_nil (sep : Char) (l : Str) : splitOnC sep l ≠ [] := by
  cases l with
  | nil => simp [splitOnC]
  | cons c cs =>
    simp only [splitOnC]
    cases h : splitOnC sep cs with
    | nil => simp
    | cons p ps => by_cases hc : c = sep <;> simp [hc]

theorem splitOnC_no_sep (sep : Char) (l : Str) :
    ∀ p ∈ splitOnC sep l, sep ∉ p := by
  induction l with
  | nil => simp [splitOnC]
  | cons c cs ih =>
    simp only [splitOnC]
    cases h : splitOnC sep cs with
    | nil => exact absurd h (splitOnC_ne_nil sep cs)
    | cons p ps =>
      have hp : sep ∉ p := ih p (by rw [h]; exact List.mem_cons_self p ps)
      have hps : ∀ q ∈ ps, sep ∉ q := fun q hq =>
        ih q (by rw [h]; exact List.mem_cons_of_mem p hq)
      dsimp only
      by_cases hc : c = sep
      · rw [if_pos hc]
        intro q hq
        rcases List.mem_cons.mp hq with h1 | h1
        · subst h1; simp
        · rcases List.mem_cons.mp h1 with h2 | h2
          · subst h2; exact hp
          · exact hps q h2
      · rw [if_neg hc]
        intro q hq
        rcases List.mem_cons.mp hq with h1 | h1
        · subst h1
          intro hmem
          rcases List.mem_cons.mp hmem with h2 | h2
          · exact hc h2.symm
          · exact hp h2
        · exact hps q h1

theorem splitOnC_eq_single (sep : Char) (l : Str) (h : sep ∉ l) :
    splitOnC sep l = [l] := by
  induction l with
  | nil => rfl
  | cons c cs ih =>
    have hc : c ≠ sep := fun he => h (he ▸ List.mem_cons_self c cs)
    have hcs : sep ∉ cs := fun hm => h (List.mem_cons_of_mem c hm)
    simp only [splitOnC, ih hcs]
    rw [if_neg hc]

theorem splitOnC_length_two (sep : Char) (l : Str) (h : sep ∈ l) :
    2 ≤ (splitOnC sep l).length := by
  induction l with
  | nil => simp at h
  | cons c cs ih =>
    simp only [splitOnC]
    cases hs : splitOnC sep cs with
    | nil => exact absurd hs (splitOnC_ne_nil sep cs)
    | cons p ps =>
      dsimp only
      by_cases hc : c = sep
      · rw [if_pos hc]; simp
      · rw [if_neg hc]
        have hmem : sep ∈ cs := by
          rcases List.mem_cons.mp h with h1 | h1
          · exact absurd h1.symm hc
          · exact h1
        have h2 := ih hmem
        rw [hs] at h2
        simpa using h2

theorem splitOnC_append_sep (sep : Char) (a b : Str) (ha : sep ∉ a) :
    splitOnC sep (a ++ sep :: b) = a :: splitOnC sep b := by
  induction a with
  | nil =>
    simp only [List.nil_append, splitOnC]
    cases hs : splitOnC sep b with
    | nil => exact absurd hs (splitOnC_ne_nil sep b)
    | cons p ps => simp
  | cons x a' ih =>
    have hx : x ≠ sep := fun he => ha (he ▸ List.mem_cons_self x a')
    have ha' : sep ∉ a' := fun hm => ha (List.mem_cons_of_mem x hm)
    rw [List.cons_append]
    simp only [splitOnC]
    rw [ih ha']
    dsimp only
    rw [if_neg hx]

theorem intercalateC_splitOnC (sep : Char) (l : Str) :
    intercalateC sep (splitOnC sep l) = l := by
  induction l with
  | nil => rfl
  | cons c cs ih =>
    simp only [splitOnC]
    cases hs : splitOnC sep cs with
    | nil => exact absurd hs (splitOnC_ne_nil sep cs)
    | cons p ps =>
      rw [hs] at ih
      dsimp only
      by_cases hc : c = sep
      · rw [if_pos hc, hc]
        simp only [intercalateC, List.nil_append]
        rw [ih]
      · rw [if_neg hc]
        cases ps with
        | nil =>
          simp only [intercalateC] at ih ⊢
          rw [ih]
        | cons q qs =>
          simp only [intercalateC, List.cons_append] at ih ⊢
          rw [ih]

theorem splitOnC_injective (sep : Char) {l1 l2 : Str}
    (h : splitOnC sep l1 = splitOnC sep l2) : l1 = l2 := by
  have h2 := congrArg (intercalateC sep) h
  rwa [intercalateC_splitOnC, intercalateC_splitOnC] at h2

theorem splitOnC_intercalateC (sep : Char) (ls : List Str) (hne : ls ≠ [])
    (h : ∀ x ∈ ls, sep ∉ x) : splitOnC sep (intercalateC sep ls) = ls := by
  induction ls with
  | nil => exact absurd rfl hne
  | cons x xs ih =>
    cases xs with
    | nil =>
      simp only [intercalateC]
      exact splitOnC_eq_single sep x (h x (List.mem_cons_self x []))
    | cons y ys =>
      simp only [intercalateC]
      rw [splitOnC_append_sep sep x _ (h x (List.mem_cons_self _ _))]
      rw [ih (by simp) (fun z hz => h z (List.mem_cons_of_mem x hz))]

theorem getLastD_splitOnC_sep_append (sep : Char) (a b : Str) :
    (splitOnC sep (a ++ sep :: b)).getLastD [] = (splitOnC sep b).getLastD [] := by
  induction a with
  | nil =>
    simp only [List.nil_append, splitOnC]
    cases hs : splitOnC sep b with
    | nil => exact absurd hs (splitOnC_ne_nil sep b)
    | cons p ps => simp [List.getLastD_cons]
  | cons x a' ih =>
    simp only [List.cons_append, splitOnC]
    cases hs : splitOnC sep (a' ++ sep :: b) with
    | nil => exact absurd hs (splitOnC_ne_nil sep _)
    | cons p ps =>
      rw [hs] at ih
      dsimp only
      by_cases hx : x = sep
      · rw [if_pos hx]
        rw [List.getLastD_cons]
        exact ih
      · rw [if_neg hx]
        have h2 : 2 ≤ (splitOnC sep (a' ++ sep :: b)).length :=
          splitOnC_length_two sep _ (by simp)
        rw [hs] at h2
        cases ps with
        | nil => simp at h2
        | cons q qs =>
          rw [← ih]
          simp only [List.getLastD_cons]

theorem basename_prefixed (d n : Str) (hn : '/' ∉ n) :
    basename (d ++ '/' :: n) = n := by
  rw [basename, getLastD_splitOnC_sep_append, splitOnC_eq_single '/' n hn]
  rfl

theorem setEqL_iff (a b : List Str) :
    setEqL a b = true ↔ ∀ x : Str, x ∈ a ↔ x ∈ b := by
  simp only [setEqL, Bool.and_eq_true, List.all_eq_true]
  constructor
  · rintro ⟨h1, h2⟩ x
    exact ⟨fun hx => List.elem_iff.mp (h1 x hx), fun hx => List.elem_iff.mp (h2 x hx)⟩
  · intro h
    exact ⟨fun x hx => List.elem_iff.mpr ((h x).mp hx),
           fun x hx => List.elem_iff.mpr ((h x).mpr hx)⟩

theorem setEqL_congr_left (a a' b : List Str) (h : ∀ x : Str, x ∈ a ↔ x ∈ a') :
    setEqL a b = setEqL a' b := by
  by_cases hb : setEqL a' b = true
  · rw [hb, setEqL_iff]
    intro x
    exact (h x).trans ((setEqL_iff a' b).mp hb x)
  · have ha : setEqL a b ≠ true := fun hab => hb (by
      rw [setEqL_iff]
      intro x
      exact ((h x).symm.trans ((setEqL_iff a b).mp hab x)))
    simp only [Bool.not_eq_true] at ha hb
    rw [ha, hb]

theorem dropWhile_eq_self_of_headF (p : Char → Bool) (l : Str)
    (h : ∀ c, l.head? = some c → p c = false) : l.dropWhile p = l := by
  cases l with
  | nil => rfl
  | cons c t =>
    rw [List.dropWhile_cons, if_neg]
    simp [h c rfl]

theorem pyStrip_eq_self {l : Str}
    (hh : ∀ c, l.head? = some c → c.isWhitespace = false)
    (hl : ∀ c, l.getLast? = some c → c.isWhitespace = false) :
    pyStrip l = l := by
  unfold pyStrip
  rw [dropWhile_eq_self_of_headF _ _ hh]
  rw [dropWhile_eq_self_of_headF _ _
    (fun c hc => hl c (by rwa [List.head?_reverse] at hc))]
  exact List.reverse_reverse l

theorem stripChar_eq_self (c : Char) (l : Str) (h : c ∉ l) : stripChar c l = l := by
  unfold stripChar
  have hx : ∀ x : Char, x ∈ l → (x == c) = false := by
    intro x hx
    simp only [beq_eq_false_iff_ne, ne_eq]
    exact fun he => h (he ▸ hx)
  rw [dropWhile_eq_self_of_headF _ _ (fun x hx' => hx x (List.mem_of_mem_head? hx'))]
  rw [dropWhile_eq_self_of_headF _ _
    (fun x hx' => hx x (List.mem_reverse.mp (List.mem_of_mem_head? hx')))]
  exact List.reverse_reverse l

theorem pyDictInsert_mem (m : List (Str × Str)) (kv e : Str × Str)
    (he : e ∈ pyDictInsert m kv) : e ∈ m ∨ e = kv := by
  unfold pyDictInsert at he
  by_cases hc : m.any (fun p => p.1 == kv.1)
  · rw [if_pos hc] at he
    rcases List.mem_map.mp he with ⟨p, hp, hpe⟩
    by_cases hk : p.1 == kv.1
    · rw [if_pos hk] at hpe
      right
      rw [← hpe]
      have : p.1 = kv.1 := by exact eq_of_beq hk
      rw [this]
    · rw [if_neg hk] at hpe
      left
      exact hpe ▸ hp
  · rw [if_neg hc] at he
    rcases List.mem_append.mp he with h1 | h1
    · exact Or.inl h1
    · exact Or.inr (List.mem_singleton.mp h1)

theorem foldl_pyDictInsert_mem (l : List (Str × Str)) :
    ∀ (acc : List (Str × Str)) (e : Str × Str),
      e ∈ l.foldl pyDictInsert acc → e ∈ acc ∨ e ∈ l := by
  induction l with
  | nil => intro acc e he; exact Or.inl he
  | cons kv l' ih =>
    intro acc e he
    rw [List.foldl_cons] at he
    rcases ih (pyDictInsert acc kv) e he with h1 | h1
    · rcases pyDictInsert_mem acc kv e h1 with h2 | h2
      · exact Or.inl h2
      · exact Or.inr (h2 ▸ List.mem_cons_self kv l')
    · exact Or.inr (List.mem_cons_of_mem kv h1)

theorem pyDict_sub (l : List (Str × Str)) (e : Str × Str) (he : e ∈ pyDict l) :
    e ∈ l := by
  rcases foldl_pyDictInsert_mem l [] e he with h | h
  · simp at h
  · exact h

theorem pyDictInsert_keys (m : List (Str × Str)) (kv : Str × Str) (k : Str) :
    k ∈ (pyDictInsert m kv).map Prod.fst ↔ k ∈ m.map Prod.fst ∨ k = kv.1 := by
  unfold pyDictInsert
  by_cases hc : m.any (fun p => p.1 == kv.1)
  · rw [if_pos hc]
    rcases List.any_eq_true.mp hc with ⟨p0, hp0, hp0k⟩
    have hp0k' : p0.1 = kv.1 := eq_of_beq hp0k
    constructor
    · intro h
      rcases List.mem_map.mp h with ⟨p, hp, hpe⟩
      rcases List.mem_map.mp hp with ⟨q, hq, hqe⟩
      by_cases hk : q.1 == kv.1
      · rw [if_pos hk] at hqe
        right
        rw [← hpe, ← hqe]
        exact eq_of_beq hk
      · rw [if_neg hk] at hqe
        left
        exact List.mem_map.mpr ⟨q, hq, by rw [hqe, hpe]⟩
    · intro h
      rcases h with h | h
      · rcases List.mem_map.mp h with ⟨q, hq, hqe⟩
        by_cases hk : q.1 == kv.1
        · refine List.mem_map.mpr ⟨(q.1, kv.2), List.mem_map.mpr ⟨q, hq, by rw [if_pos hk]⟩, ?_⟩
          rw [← hqe]
        · exact List.mem_map.mpr ⟨q, List.mem_map.mpr ⟨q, hq, by rw [if_neg hk]⟩, hqe⟩
      · refine List.mem_map.mpr ⟨(p0.1, kv.2), List.mem_map.mpr ⟨p0, hp0, by rw [if_pos hp0k]⟩, ?_⟩
        rw [h, hp0k']
  · rw [if_neg hc]
    rw [List.map_append]
    simp [List.mem_append, eq_comm]

theorem foldl_pyDictInsert_keys (l : List (Str × Str)) :
    ∀ (acc : List (Str × Str)) (k : Str),
      k ∈ (l.foldl pyDictInsert acc).map Prod.fst ↔
        k ∈ acc.map Prod.fst ∨ k ∈ l.map Prod.fst := by
  induction l with
  | nil => intro acc k; simp
  | cons kv l' ih =>
    intro acc k
    rw [List.foldl_cons, ih (pyDictInsert acc kv) k, pyDictInsert_keys]
    simp only [List.map_cons, List.mem_cons]
    tauto

theorem pyDict_keys (l : List (Str × Str)) (k : Str) :
    k ∈ (pyDict l).map Prod.fst ↔ k ∈ l.map Prod.fst := by
  rw [pyDict, foldl_pyDictInsert_keys]
  simp

theorem mem_insertLe (a x : Str) (l : List Str) :
    a ∈ insertLe x l ↔ a = x ∨ a ∈ l := by
  induction l with
  | nil => simp [insertLe]
  | cons y ys ih =>
    unfold insertLe
    by_cases h : strLe x y
    · rw [if_pos h]; simp
    · rw [if_neg h]
      simp only [List.mem_cons, ih]
      tauto

theorem mem_sortStrs (a : Str) (l : List Str) : a ∈ sortStrs l ↔ a ∈ l := by
  induction l with
  | nil => simp [sortStrs]
  | cons x xs ih =>
    unfold sortStrs
    rw [mem_insertLe, ih]
    simp

theorem matchesOutdated_head_last {l : Str} (h : matchesOutdated l = true) :
    l ≠ [] ∧ (∀ c, l.head? = some c → c.isWhitespace = false) ∧
      l.getLast? = some ')' := by
  simp only [matchesOutdated, Bool.and_eq_true, Bool.not_eq_true', decide_eq_true_eq] at h
  obtain ⟨⟨hA, hB⟩, ⟨hC, hD⟩, hY⟩ := h
  have hw : l.takeWhile (fun c => !c.isWhitespace) ≠ [] := by
    intro hweq
    rw [hweq] at hA
    simp at hA
  have hlne : l ≠ [] := by
    intro hleq
    rw [hleq] at hw
    simp at hw
  refine ⟨hlne, ?_, ?_⟩
  · intro c hc
    cases l with
    | nil => simp at hc
    | cons x t =>
      have hx : x = c := by
        simp only [List.head?_cons, Option.some.injEq] at hc
        exact hc
      subst hx
      by_cases hp : (!x.isWhitespace) = true
      · simpa using hp
      · rw [List.takeWhile_cons, if_neg hp] at hw
        exact absurd rfl hw
  · have hpre : litCurrent <+: l.dropWhile (fun c => !c.isWhitespace) :=
      List.isPrefixOf_iff_prefix.mp hB
    have heq := List.prefix_iff_eq_append.mp hpre
    have hrne : (l.dropWhile (fun c => !c.isWhitespace)).drop litCurrent.length ≠ [] := by
      intro h0
      rw [h0] at hC
      simp at hC
    have hrlast : ((l.dropWhile (fun c => !c.isWhitespace)).drop
        litCurrent.length).getLast? = some ')' := by
      rw [List.getLastD_eq_getLast?] at hD
      rw [List.getLast?_eq_getLast _ hrne] at hD ⊢
      rw [Option.getD_some] at hD
      rw [hD]
    calc l.getLast?
        = ((l.takeWhile (fun c => !c.isWhitespace)) ++
            (l.dropWhile (fun c => !c.isWhitespace))).getLast? := by
          rw [List.takeWhile_append_dropWhile]
      _ = (l.dropWhile (fun c => !c.isWhitespace)).getLast?.or
            (l.takeWhile (fun c => !c.isWhitespace)).getLast? := List.getLast?_append
      _ = some ')' := by
          rw [← heq, List.getLast?_append, hrlast]
          rfl

theorem pyStrip_of_matches {l : Str} (h : matchesOutdated l = true) :
    pyStrip l = l := by
  obtain ⟨hne, hh, hl⟩ := matchesOutdated_head_last h
  refine pyStrip_eq_self hh (fun c hc => ?_)
  rw [hl] at hc
  have hc' : c = ')' := (Option.some.inj hc).symm
  rw [hc']
  decide

theorem mem_getOutdatedPkgs {raw e : Str} (he : e ∈ getOutdatedPkgs raw) :
    matchesOutdated e = true ∧ e ≠ [] ∧ pyStrip e = e := by
  rw [getOutdatedPkgs, mem_sortStrs] at he
  rcases List.mem_map.mp he with ⟨x, hx, hxe⟩
  rcases List.mem_filter.mp hx with ⟨hxl, hxm⟩
  have hnl : '\n' ∉ x := splitOnC_no_sep '\n' raw x hxl
  rw [stripChar_eq_self '\n' x hnl] at hxe
  subst hxe
  exact ⟨hxm, (matchesOutdated_head_last hxm).1, pyStrip_of_matches hxm⟩

theorem mem_getOutdatedPkgs_no_nl {raw e : Str} (he : e ∈ getOutdatedPkgs raw) :
    '\n' ∉ e := by
  rw [getOutdatedPkgs, mem_sortStrs] at he
  rcases List.mem_map.mp he with ⟨x, hx, hxe⟩
  rcases List.mem_filter.mp hx with ⟨hxl, _⟩
  have hnl : '\n' ∉ x := splitOnC_no_sep '\n' raw x hxl
  rw [stripChar_eq_self '\n' x hnl] at hxe
  subst hxe
  exact hnl

theorem pyReadLinesStripped_intercalate (data : List Str)
    (hnl : ∀ e ∈ data, '\n' ∉ e)
    (hne : ∀ e ∈ data, e ≠ [])
    (hstrip : ∀ e ∈ data, pyStrip e = e) :
    pyReadLinesStripped (intercalateC '\n' data) = data := by
  cases data with
  | nil => rfl
  | cons d ds =>
    simp only [pyReadLinesStripped]
    rw [splitOnC_intercalateC '\n' (d :: ds) (by simp) hnl]
    have hlast : (d :: ds).getLastD [] ≠ [] := by
      rw [List.getLastD_eq_getLast?, List.getLast?_eq_getLast _ (by simp),
        Option.getD_some]
      exact hne _ (List.getLast_mem _)
    rw [if_neg hlast]
    calc (d :: ds).map pyStrip = (d :: ds).map id := List.map_congr_left hstrip
      _ = d :: ds := List.map_id _

/-- The writing/reading round trip for `outdated.txt`: a report produced by
`_get_outdated_pkgs`, written by `_save_outdated` as `"\n".join(data)`, reads
back (readlines + strip) as exactly the same list of lines. -/
theorem outdated_roundtrip (raw : Str) :
    pyReadLinesStripped (intercalateC '\n' (getOutdatedPkgs raw)) =
      getOutdatedPkgs raw := by
  refine pyReadLinesStripped_intercalate _ ?_ ?_ ?_
  · exact fun e he => mem_getOutdatedPkgs_no_nl he
  · exact fun e he => (mem_getOutdatedPkgs he).2.1
  · exact fun e he => (mem_getOutdatedPkgs he).2.2

/-! ## Facts about the change detector -/

theorem dict_keys_are_stored_names (snap : Snapshot)
    (hwfS : ∀ nc ∈ snap.rfiles, ('/' : Char) ∉ nc.1) (k : Str) :
    k ∈ (pyDict ((collectSavedPaths snap).map (fun f => (basename f, f)))).map
        (fun kv => kv.1) ↔
      k ∈ snap.rfiles.map (fun nc => nc.1) := by
  have hmain : k ∈ (pyDict ((collectSavedPaths snap).map
      (fun f => (basename f, f)))).map Prod.fst ↔
      k ∈ ((collectSavedPaths snap).map (fun f => (basename f, f))).map Prod.fst :=
    pyDict_keys _ k
  refine Iff.trans hmain ?_
  unfold collectSavedPaths
  constructor
  · intro hk
    rcases List.mem_map.mp hk with ⟨kv, hkv, hke⟩
    rcases List.mem_map.mp hkv with ⟨f, hf, hfe⟩
    rcases List.mem_map.mp hf with ⟨nc, hnc, hnce⟩
    refine List.mem_map.mpr ⟨nc, hnc, ?_⟩
    show nc.1 = k
    rw [← hke, ← hfe]
    show nc.1 = basename f
    rw [← hnce, basename_prefixed _ _ (hwfS nc hnc)]
  · intro hk
    rcases List.mem_map.mp hk with ⟨nc, hnc, hnce⟩
    refine List.mem_map.mpr
      ⟨(basename (fullSavedVenvPath ++ '/' :: nc.1), fullSavedVenvPath ++ '/' :: nc.1),
        List.mem_map.mpr ⟨fullSavedVenvPath ++ '/' :: nc.1,
          List.mem_map.mpr ⟨nc, hnc, rfl⟩, rfl⟩, ?_⟩
    show basename (fullSavedVenvPath ++ '/' :: nc.1) = k
    rw [basename_prefixed _ _ (hwfS nc hnc), hnce]

theorem requiresHasDiff_false_of_identical (fs : FS) (snap : Snapshot)
    (hwfS : ∀ nc ∈ snap.rfiles, ('/' : Char) ∉ nc.1)
    (hnames : setEqL (snap.rfiles.map (fun nc => nc.1))
      (fs.cwdFiles.map (fun pc => pc.1)) = true)
    (hcross : ∀ nc ∈ snap.rfiles, ∀ pc ∈ fs.cwdFiles, nc.1 = pc.1 → nc.2 = pc.2) :
    requiresHasDiff fs snap = false := by
  unfold requiresHasDiff
  have hset : setEqL ((pyDict ((collectSavedPaths snap).map
      (fun f => (basename f, f)))).map (fun kv => kv.1)) (collectCwdPaths fs) = true := by
    rw [setEqL_congr_left _ (snap.rfiles.map (fun nc => nc.1)) _
      (dict_keys_are_stored_names snap hwfS)]
    exact hnames
  rw [if_pos hset]
  rw [List.any_eq_false]
  intro kv hkv
  rw [Bool.not_eq_true]
  have hkvpre := pyDict_sub _ kv hkv
  rcases List.mem_map.mp hkvpre with ⟨f, hf, hfe⟩
  rcases List.mem_map.mp (show f ∈ snap.rfiles.map
    (fun nc => fullSavedVenvPath ++ '/' :: nc.1) from hf) with ⟨nc, hnc, hnce⟩
  have hk1 : kv.1 = nc.1 := by
    rw [← hfe]
    show basename f = nc.1
    rw [← hnce, basename_prefixed _ _ (hwfS nc hnc)]
  have hk2 : kv.2 = fullSavedVenvPath ++ '/' :: nc.1 := by
    rw [← hfe, ← hnce]
  have hkcwd : nc.1 ∈ fs.cwdFiles.map (fun pc => pc.1) :=
    ((setEqL_iff _ _).mp hnames nc.1).mp (List.mem_map.mpr ⟨nc, hnc, rfl⟩)
  rcases List.mem_map.mp hkcwd with ⟨pc, hpc, hpck⟩
  have hfindC : ∃ pc0, fs.cwdFiles.find? (fun q => q.1 == kv.1) = some pc0 := by
    rw [← Option.isSome_iff_exists, List.find?_isSome]
    exact ⟨pc, hpc, by simp only [hpck, hk1]; exact beq_self_eq_true _⟩
  obtain ⟨pc0, hfc⟩ := hfindC
  have hmem0 : pc0 ∈ fs.cwdFiles := List.mem_of_find?_eq_some hfc
  have hpred0beq := List.find?_some hfc
  have hpred0 : pc0.1 = kv.1 := eq_of_beq hpred0beq
  have hreadC : readCwd fs kv.1 = pc0.2 := by
    unfold readCwd
    rw [hfc]
    rfl
  have hfindS : ∃ nc0, snap.rfiles.find?
      (fun q => fullSavedVenvPath ++ '/' :: q.1 == kv.2) = some nc0 := by
    rw [← Option.isSome_iff_exists, List.find?_isSome]
    exact ⟨nc, hnc, by rw [hk2]; exact beq_self_eq_true _⟩
  obtain ⟨nc0, hfsv⟩ := hfindS
  have hmemS0 : nc0 ∈ snap.rfiles := List.mem_of_find?_eq_some hfsv
  have hpredSbeq := List.find?_some hfsv
  have hpredS : fullSavedVenvPath ++ '/' :: nc0.1 = kv.2 := eq_of_beq hpredSbeq
  have hn0 : nc0.1 = nc.1 := by
    have hcan : ('/' :: nc0.1 : Str) = '/' :: nc.1 :=
      List.append_cancel_left (by rw [hpredS, hk2])
    exact (List.cons.injEq _ _ _ _).mp hcan |>.2
  have hreadS : readSavedByPath snap kv.2 = nc0.2 := by
    unfold readSavedByPath
    rw [hfsv]
    rfl
  have hc2 : nc0.2 = pc0.2 :=
    hcross nc0 hmemS0 pc0 hmem0 (by rw [hn0, ← hk1, ← hpred0])
  rw [hreadC, hreadS, ← hc2]
  unfold unifiedDiffNonempty
  simp

theorem requiresHasDiff_true_of_name_change (fs : FS) (snap : Snapshot)
    (hwfS : ∀ nc ∈ snap.rfiles, ('/' : Char) ∉ nc.1)
    (hneq : setEqL (snap.rfiles.map (fun nc => nc.1))
      (fs.cwdFiles.map (fun pc => pc.1)) = false) :
    requiresHasDiff fs snap = true := by
  unfold requiresHasDiff
  have hset : setEqL ((pyDict ((collectSavedPaths snap).map
      (fun f => (basename f, f)))).map (fun kv => kv.1)) (collectCwdPaths fs) = false := by
    rw [setEqL_congr_left _ (snap.rfiles.map (fun nc => nc.1)) _
      (dict_keys_are_stored_names snap hwfS)]
    exact hneq
  rw [if_neg (by rw [hset]; exact Bool.false_ne_true)]

theorem requiresHasDiff_true_of_content_change (fs : FS) (snap : Snapshot)
    (hwfS : ∀ nc ∈ snap.rfiles, ('/' : Char) ∉ nc.1)
    (hEq : setEqL (snap.rfiles.map (fun nc => nc.1))
      (fs.cwdFiles.map (fun pc => pc.1)) = true)
    (name cNew cOld : Str)
    (hmemN : (name, cNew) ∈ fs.cwdFiles)
    (hmemO : (name, cOld) ∈ snap.rfiles)
    (hfunC : ∀ pc ∈ fs.cwdFiles, ∀ qc ∈ fs.cwdFiles, pc.1 = qc.1 → pc.2 = qc.2)
    (hfunS : ∀ nc ∈ snap.rfiles, ∀ mc ∈ snap.rfiles, nc.1 = mc.1 → nc.2 = mc.2)
    (hne : cNew ≠ cOld) :
    requiresHasDiff fs snap = true := by
  unfold requiresHasDiff
  have hset : setEqL ((pyDict ((collectSavedPaths snap).map
      (fun f => (basename f, f)))).map (fun kv => kv.1)) (collectCwdPaths fs) = true := by
    rw [setEqL_congr_left _ (snap.rfiles.map (fun nc => nc.1)) _
      (dict_keys_are_stored_names snap hwfS)]
    exact hEq
  rw [if_pos hset]
  rw [List.any_eq_true]
  have hkey : name ∈ (pyDict ((collectSavedPaths snap).map
      (fun f => (basename f, f)))).map (fun kv => kv.1) :=
    (dict_keys_are_stored_names snap hwfS name).mpr
      (List.mem_map.mpr ⟨(name, cOld), hmemO, rfl⟩)
  rcases List.mem_map.mp hkey with ⟨kv, hkv, hke⟩
  refine ⟨kv, hkv, ?_⟩
  have hkvpre := pyDict_sub _ kv hkv
  rcases List.mem_map.mp hkvpre with ⟨f, hf, hfe⟩
  rcases List.mem_map.mp (show f ∈ snap.rfiles.map
    (fun nc => fullSavedVenvPath ++ '/' :: nc.1) from hf) with ⟨nc, hnc, hnce⟩
  have hk1 : kv.1 = nc.1 := by
    rw [← hfe]
    show basename f = nc.1
    rw [← hnce, basename_prefixed _ _ (hwfS nc hnc)]
  have hk2 : kv.2 = fullSavedVenvPath ++ '/' :: nc.1 := by
    rw [← hfe, ← hnce]
  have hncname : nc.1 = name := by rw [← hk1, hke]
  have hfindC : ∃ pc0, fs.cwdFiles.find? (fun q => q.1 == kv.1) = some pc0 := by
    rw [← Option.isSome_iff_exists, List.find?_isSome]
    refine ⟨(name, cNew), hmemN, ?_⟩
    show (name == kv.1) = true
    rw [hke]
    exact beq_self_eq_true _
  obtain ⟨pc0, hfc⟩ := hfindC
  have hmem0 : pc0 ∈ fs.cwdFiles := List.mem_of_find?_eq_some hfc
  have hpred0beq := List.find?_some hfc
  have hpred0 : pc0.1 = kv.1 := eq_of_beq hpred0beq
  have hreadC : readCwd fs kv.1 = pc0.2 := by
    unfold readCwd
    rw [hfc]
    rfl
  have hcontC : pc0.2 = cNew :=
    hfunC pc0 hmem0 (name, cNew) hmemN (by rw [hpred0, hke])
  have hfindS : ∃ nc0, snap.rfiles.find?
      (fun q => fullSavedVenvPath ++ '/' :: q.1 == kv.2) = some nc0 := by
    rw [← Option.isSome_iff_exists, List.find?_isSome]
    exact ⟨nc, hnc, by rw [hk2]; exact beq_self_eq_true _⟩
  obtain ⟨nc0, hfsv⟩ := hfindS
  have hmemS0 : nc0 ∈ snap.rfiles := List.mem_of_find?_eq_some hfsv
  have hpredSbeq := List.find?_some hfsv
  have hpredS : fullSavedVenvPath ++ '/' :: nc0.1 = kv.2 := eq_of_beq hpredSbeq
  have hn0 : nc0.1 = nc.1 := by
    have hcan : ('/' :: nc0.1 : Str) = '/' :: nc.1 :=
      List.append_cancel_left (by rw [hpredS, hk2])
    exact (List.cons.injEq _ _ _ _).mp hcan |>.2
  have hreadS : readSavedByPath snap kv.2 = nc0.2 := by
    unfold readSavedByPath
    rw [hfsv]
    rfl
  have hcontS : nc0.2 = cOld :=
    hfunS nc0 hmemS0 (name, cOld) hmemO (by rw [hn0, hncname])
  rw [hreadC, hreadS, hcontC, hcontS]
  unfold unifiedDiffNonempty
  have hsp : splitOnC '\n' cNew ≠ splitOnC '\n' cOld :=
    fun h => hne (splitOnC_injective '\n' h)
  simp [hsp]

/-! ## Facts about `venvNotChanged`, `rebuild` and `ensure` -/

theorem venvNotChanged_of_diff (ext : Ext) (fs : FS) (snap : Snapshot)
    (h : requiresHasDiff fs snap = true) :
    venvNotChanged ext fs snap = Except.ok false := by
  unfold venvNotChanged
  rw [if_pos h]

theorem venvNotChanged_of_nodiff (ext : Ext) (fs : FS) (snap : Snapshot)
    (h : requiresHasDiff fs snap = false) :
    venvNotChanged ext fs snap =
      match packagesUpdated ext.pipStdoutSaved snap with
      | Except.error e => Except.error e
      | Except.ok b => Except.ok (!b) := by
  unfold venvNotChanged
  rw [if_neg (by rw [h]; exact Bool.false_ne_true)]

theorem rebuild_ret_none (ext : Ext) (fs : FS) : (rebuild ext fs).ret = PyVal.none := by
  unfold rebuild
  by_cases h : (ext.buildRet == 0) = true
  · rw [if_pos h]
  · rw [if_neg h]

theorem rebuild_path_ne_reuse (ext : Ext) (fs : FS) :
    (rebuild ext fs).path ≠ EnsurePath.reuse := by
  unfold rebuild
  by_cases h : (ext.buildRet == 0) = true
  · rw [if_pos h]; simp
  · rw [if_neg h]; simp

theorem rebuild_buildInvoke_mem (ext : Ext) (fs : FS) :
    Ev.buildInvoke ∈ (rebuild ext fs).events := by
  unfold rebuild
  by_cases h : (ext.buildRet == 0) = true
  · rw [if_pos h]; simp
  · rw [if_neg h]; simp

theorem rebuild_events_start (ext : Ext) (fs : FS) :
    (rebuild ext fs).events.take 3 = [Ev.removeActual, Ev.buildInvoke, Ev.removeSaved] := by
  unfold rebuild
  by_cases h : (ext.buildRet == 0) = true
  · rw [if_pos h]
    rfl
  · rw [if_neg h]
    rfl

theorem rebuild_of_fail (ext : Ext) (fs : FS) (h : ext.buildRet ≠ 0) :
    rebuild ext fs =
      { fs := { cwdFiles := fs.cwdFiles, snap := Option.none, live := Option.none }
        ret := PyVal.none
        path := EnsurePath.rebuildFail
        events := [Ev.removeActual, Ev.buildInvoke, Ev.removeSaved, Ev.removeActual] } := by
  unfold rebuild
  rw [if_neg (by simp [h])]

theorem ensure_reuse_eq (ext : Ext) (fs : FS) (snap : Snapshot)
    (hs : fs.snap = Option.some snap)
    (h : venvNotChanged ext fs snap = Except.ok true) :
    ensure ext fs = Except.ok
      { fs := { fs with live := Option.some (copyTreeNoPyc snap.tree) }
        ret := PyVal.none
        path := EnsurePath.reuse
        events := [Ev.restoreSnap] } := by
  unfold ensure
  rw [hs]
  dsimp only
  rw [h]

theorem ensure_rebuild_eq (ext : Ext) (fs : FS) (snap : Snapshot)
    (hs : fs.snap = Option.some snap)
    (h : venvNotChanged ext fs snap = Except.ok false) :
    ensure ext fs = Except.ok (rebuild ext fs) := by
  unfold ensure
  rw [hs]
  dsimp only
  rw [h]

theorem ensure_error_eq (ext : Ext) (fs : FS) (snap : Snapshot) (e : VErr)
    (hs : fs.snap = Option.some snap)
    (h : venvNotChanged ext fs snap = Except.error e) :
    ensure ext fs = Except.error e := by
  unfold ensure
  rw [hs]
  dsimp only
  rw [h]

theorem ensure_no_snap_eq (ext : Ext) (fs : FS) (hs : fs.snap = Option.none) :
    ensure ext fs = Except.ok (rebuild ext fs) := by
  unfold ensure
  rw [hs]

theorem ensure_cases (ext : Ext) (fs : FS) (out : EnsureOut)
    (h : ensure ext fs = Except.ok out) :
    (∃ snap, fs.snap = Option.some snap ∧
      venvNotChanged ext fs snap = Except.ok true ∧
      out = { fs := { fs with live := Option.some (copyTreeNoPyc snap.tree) }
              ret := PyVal.none
              path := EnsurePath.reuse
              events := [Ev.restoreSnap] }) ∨
    out = rebuild ext fs := by
  unfold ensure at h
  cases hs : fs.snap with
  | none =>
    rw [hs] at h
    exact Or.inr (Except.ok.inj h).symm
  | some snap =>
    rw [hs] at h
    dsimp only at h
    cases hv : venvNotChanged ext fs snap with
    | error e => rw [hv] at h; simp at h
    | ok b =>
      rw [hv] at h
      cases b with
      | false => exact Or.inr (Except.ok.inj h).symm
      | true => exact Or.inl ⟨snap, rfl, hv, (Except.ok.inj h).symm⟩

instance {ε α : Type} [DecidableEq ε] [DecidableEq α] : DecidableEq (Except ε α) :=
  fun a b =>
    match a, b with
    | Except.error e, Except.error f =>
        if h : e = f then isTrue (by rw [h])
        else isFalse (fun hh => h (Except.error.inj hh))
    | Except.error _, Except.ok _ => isFalse (fun hh => Except.noConfusion hh)
    | Except.ok _, Except.error _ => isFalse (fun hh => Except.noConfusion hh)
    | Except.ok x, Except.ok y =>
        if h : x = y then isTrue (by rw [h])
        else isFalse (fun hh => h (Except.ok.inj hh))

theorem setEqL_refl (a : List Str) : setEqL a a = true :=
  (setEqL_iff a a).mpr (fun _ => Iff.rfl)

/-- The ordering the spec asserts for the REBUILD path: in the event trace the
snapshot purge (`_remove_saved_venv`) precedes the provisioning invocation. -/
def purgeBeforeBuild (evs : List Ev) : Prop :=
  List.indexOf Ev.removeSaved evs < List.indexOf Ev.buildInvoke evs

instance (evs : List Ev) : Decidable (purgeBeforeBuild evs) :=
  inferInstanceAs (Decidable (_ < _))

/-! ## The claims -/

/-- C1: if a Snapshot exists, the current requirement files are byte-identical
to the stored ones (same base filenames, same contents), and the fresh
outdated report for the snapshot environment equals the recorded one as a set
of lines, then `ensure()` takes the REUSE path (restoring the live environment
from the snapshot tree) and the provisioning tool is never invoked. -/
theorem stable_cache_takes_reuse (ext : Ext) (fs : FS) (snap : Snapshot) (content : Str)
    (hs : fs.snap = Option.some snap)
    (hwfS : ∀ nc ∈ snap.rfiles, ('/' : Char) ∉ nc.1)
    (hnames : setEqL (snap.rfiles.map (fun nc => nc.1))
      (fs.cwdFiles.map (fun pc => pc.1)) = true)
    (hcross : ∀ nc ∈ snap.rfiles, ∀ pc ∈ fs.cwdFiles, nc.1 = pc.1 → nc.2 = pc.2)
    (ho : snap.outdated = Option.some content)
    (hrep : setEqL (pyReadLinesStripped content)
      (getOutdatedPkgs ext.pipStdoutSaved) = true) :
    ∃ out, ensure ext fs = Except.ok out ∧ out.path = EnsurePath.reuse ∧
      out.fs.live = Option.some (copyTreeNoPyc snap.tree) ∧
      Ev.buildInvoke ∉ out.events := by
  have hreq : requiresHasDiff fs snap = false :=
    requiresHasDiff_false_of_identical fs snap hwfS hnames hcross
  have hpk : packagesUpdated ext.pipStdoutSaved snap = Except.ok false := by
    unfold packagesUpdated
    rw [ho]
    dsimp only
    rw [hrep]
    rfl
  have hv : venvNotChanged ext fs snap = Except.ok true := by
    rw [venvNotChanged_of_nodiff ext fs snap hreq, hpk]
    rfl
  exact ⟨_, ensure_reuse_eq ext fs snap hs hv, rfl, rfl, by simp⟩

/-- Witness for C1 at a concrete state: one requirement file `r` with content
`x` stored identically, an empty recorded report, and a fresh query returning
no outdated packages. -/
theorem stable_cache_takes_reuse_witness :
    ∃ out, ensure ⟨[], [], 0, [], Option.none⟩
        ⟨[(['r'], ['x'])], Option.some ⟨[], [(['r'], ['x'])], Option.some []⟩,
          Option.none⟩ = Except.ok out ∧
      out.path = EnsurePath.reuse ∧
      out.fs.live = Option.some (copyTreeNoPyc ([] : Tree)) ∧
      Ev.buildInvoke ∉ out.events :=
  stable_cache_takes_reuse ⟨[], [], 0, [], Option.none⟩
    ⟨[(['r'], ['x'])], Option.some ⟨[], [(['r'], ['x'])], Option.some []⟩, Option.none⟩
    ⟨[], [(['r'], ['x'])], Option.some []⟩ []
    rfl (by decide) (by decide) (by decide) rfl (by decide)

/-- C3: if a Snapshot exists but is invalid (the change detector reports a
change) and the provisioning tool fails, `ensure()` terminates normally with
no Snapshot and no live environment, and any subsequent `ensure()` call takes
the rebuild path. -/
theorem failed_rebuild_leaves_clean_state (ext : Ext) (fs : FS) (snap : Snapshot)
    (hs : fs.snap = Option.some snap)
    (hinv : venvNotChanged ext fs snap = Except.ok false)
    (hfail : ext.buildRet ≠ 0) :
    ∃ out, ensure ext fs = Except.ok out ∧ out.path = EnsurePath.rebuildFail ∧
      out.fs.snap = Option.none ∧ out.fs.live = Option.none ∧
      (∀ ext' : Ext, ∃ out', ensure ext' out.fs = Except.ok out' ∧
        out'.path ≠ EnsurePath.reuse) := by
  refine ⟨rebuild ext fs, ensure_rebuild_eq ext fs snap hs hinv, ?_⟩
  rw [rebuild_of_fail ext fs hfail]
  refine ⟨rfl, rfl, rfl, ?_⟩
  intro ext'
  exact ⟨rebuild ext' _, ensure_no_snap_eq ext' _ rfl, rebuild_path_ne_reuse ext' _⟩

/-- Witness for C3: stored requirement file `r` no longer present in the
project directory (so the snapshot is invalid), build exit code 1. -/
theorem failed_rebuild_leaves_clean_state_witness :
    ∃ out, ensure ⟨[], [], 1, [], Option.none⟩
        ⟨[], Option.some ⟨[], [(['r'], ['x'])], Option.some []⟩, Option.none⟩ =
      Except.ok out ∧
      out.path = EnsurePath.rebuildFail ∧
      out.fs.snap = Option.none ∧ out.fs.live = Option.none ∧
      (∀ ext' : Ext, ∃ out', ensure ext' out.fs = Except.ok out' ∧
        out'.path ≠ EnsurePath.reuse) :=
  failed_rebuild_leaves_clean_state ⟨[], [], 1, [], Option.none⟩
    ⟨[], Option.some ⟨[], [(['r'], ['x'])], Option.some []⟩, Option.none⟩
    ⟨[], [(['r'], ['x'])], Option.some []⟩
    rfl (by decide) (by decide)

/-- C4: with a Snapshot present, if the set of base filenames of the stored
requirement files differs at all from the set of currently collected paths
(a matching file was added or removed), the detector reports a change and
`ensure()` takes the rebuild path, invoking the provisioning tool. -/
theorem rfile_added_removed_forces_rebuild (ext : Ext) (fs : FS) (snap : Snapshot)
    (hs : fs.snap = Option.some snap)
    (hwfS : ∀ nc ∈ snap.rfiles, ('/' : Char) ∉ nc.1)
    (hneq : setEqL (snap.rfiles.map (fun nc => nc.1))
      (fs.cwdFiles.map (fun pc => pc.1)) = false) :
    requiresHasDiff fs snap = true ∧
    ∃ out, ensure ext fs = Except.ok out ∧ out.path ≠ EnsurePath.reuse ∧
      Ev.buildInvoke ∈ out.events := by
  have hreq := requiresHasDiff_true_of_name_change fs snap hwfS hneq
  exact ⟨hreq, rebuild ext fs,
    ensure_rebuild_eq ext fs snap hs (venvNotChanged_of_diff ext fs snap hreq),
    rebuild_path_ne_reuse ext fs, rebuild_buildInvoke_mem ext fs⟩

/-- Witness for C4: a requirement file `q` was added next to the stored `r`. -/
theorem rfile_added_removed_forces_rebuild_witness :
    requiresHasDiff
      ⟨[(['r'], ['x']), (['q'], ['y'])],
        Option.some ⟨[], [(['r'], ['x'])], Option.some []⟩, Option.none⟩
      ⟨[], [(['r'], ['x'])], Option.some []⟩ = true ∧
    ∃ out, ensure ⟨[], [], 0, [], Option.none⟩
        ⟨[(['r'], ['x']), (['q'], ['y'])],
          Option.some ⟨[], [(['r'], ['x'])], Option.some []⟩, Option.none⟩ =
      Except.ok out ∧ out.path ≠ EnsurePath.reuse ∧ Ev.buildInvoke ∈ out.events :=
  rfile_added_removed_forces_rebuild ⟨[], [], 0, [], Option.none⟩
    ⟨[(['r'], ['x']), (['q'], ['y'])],
      Option.some ⟨[], [(['r'], ['x'])], Option.some []⟩, Option.none⟩
    ⟨[], [(['r'], ['x'])], Option.some []⟩
    rfl (by decide) (by decide)

/-- C5: with a Snapshot present and matching base-filename sets, any content
difference in a corresponding requirement-file pair (a nonempty line-based
diff, i.e. any byte change) makes the detector report a change and `ensure()`
take the rebuild path. -/
theorem rfile_content_drift_forces_rebuild (ext : Ext) (fs : FS) (snap : Snapshot)
    (hs : fs.snap = Option.some snap)
    (hwfS : ∀ nc ∈ snap.rfiles, ('/' : Char) ∉ nc.1)
    (hEq : setEqL (snap.rfiles.map (fun nc => nc.1))
      (fs.cwdFiles.map (fun pc => pc.1)) = true)
    (name cNew cOld : Str)
    (hmemN : (name, cNew) ∈ fs.cwdFiles)
    (hmemO : (name, cOld) ∈ snap.rfiles)
    (hfunC : ∀ pc ∈ fs.cwdFiles, ∀ qc ∈ fs.cwdFiles, pc.1 = qc.1 → pc.2 = qc.2)
    (hfunS : ∀ nc ∈ snap.rfiles, ∀ mc ∈ snap.rfiles, nc.1 = mc.1 → nc.2 = mc.2)
    (hne : cNew ≠ cOld) :
    requiresHasDiff fs snap = true ∧
    ∃ out, ensure ext fs = Except.ok out ∧ out.path ≠ EnsurePath.reuse ∧
      Ev.buildInvoke ∈ out.events := by
  have hreq := requiresHasDiff_true_of_content_change fs snap hwfS hEq
    name cNew cOld hmemN hmemO hfunC hfunS hne
  exact ⟨hreq, rebuild ext fs,
    ensure_rebuild_eq ext fs snap hs (venvNotChanged_of_diff ext fs snap hreq),
    rebuild_path_ne_reuse ext fs, rebuild_buildInvoke_mem ext fs⟩

/-- Witness for C5: the requirement file `r` changed from content `x` to `y`. -/
theorem rfile_content_drift_forces_rebuild_witness :
    requiresHasDiff
      ⟨[(['r'], ['y'])], Option.some ⟨[], [(['r'], ['x'])], Option.some []⟩, Option.none⟩
      ⟨[], [(['r'], ['x'])], Option.some []⟩ = true ∧
    ∃ out, ensure ⟨[], [], 0, [], Option.none⟩
        ⟨[(['r'], ['y'])], Option.some ⟨[], [(['r'], ['x'])], Option.some []⟩,
          Option.none⟩ =
      Except.ok out ∧ out.path ≠ EnsurePath.reuse ∧ Ev.buildInvoke ∈ out.events :=
  rfile_content_drift_forces_rebuild ⟨[], [], 0, [], Option.none⟩
    ⟨[(['r'], ['y'])], Option.some ⟨[], [(['r'], ['x'])], Option.some []⟩, Option.none⟩
    ⟨[], [(['r'], ['x'])], Option.some []⟩
    rfl (by decide) (by decide) ['r'] ['y'] ['x']
    (by decide) (by decide) (by decide) (by decide) (by decide)

/-- C2 counterexample: a concrete rebuild run (snapshot present but stale,
build succeeding) whose event trace is remove-live, invoke build, purge
snapshot, save — the purge does NOT precede the provisioning invocation. -/
theorem purge_after_build_counterexample :
    (ensure ⟨[], [], 0, [], Option.none⟩
        ⟨[], Option.some ⟨[], [(['r'], ['x'])], Option.some []⟩,
          Option.none⟩).toOption.map (fun o => (o.path, o.events)) =
      Option.some (EnsurePath.rebuildOk,
        [Ev.removeActual, Ev.buildInvoke, Ev.removeSaved, Ev.saveSnap]) ∧
    ¬ purgeBeforeBuild [Ev.removeActual, Ev.buildInvoke, Ev.removeSaved, Ev.saveSnap] := by
  constructor
  · decide
  · decide

/-- C2 (amended): on every rebuild run the trace starts with removing the live
environment, then the provisioning invocation, then the snapshot purge — the
purge happens immediately AFTER the tool is invoked, not before; it still runs
unconditionally on every rebuild, so a failed rebuild terminates with no
snapshot present. -/
theorem rebuild_purges_snapshot_after_invoke (ext : Ext) (fs : FS) (out : EnsureOut)
    (h : ensure ext fs = Except.ok out) (hp : out.path ≠ EnsurePath.reuse) :
    out.events.take 3 = [Ev.removeActual, Ev.buildInvoke, Ev.removeSaved] ∧
    (out.path = EnsurePath.rebuildFail → out.fs.snap = Option.none) := by
  rcases ensure_cases ext fs out h with ⟨snap, _, _, hout⟩ | hout
  · rw [hout] at hp
    simp at hp
  · subst hout
    refine ⟨rebuild_events_start ext fs, ?_⟩
    intro hpf
    unfold rebuild at hpf ⊢
    by_cases hb : (ext.buildRet == 0) = true
    · rw [if_pos hb] at hpf
      simp at hpf
    · rw [if_neg hb]

/-- Witness for the amended C2 at a failing build with no prior snapshot. -/
theorem rebuild_purges_snapshot_after_invoke_witness :
    (rebuild ⟨[], [], 1, [], Option.none⟩ ⟨[], Option.none, Option.none⟩).events.take 3 =
      [Ev.removeActual, Ev.buildInvoke, Ev.removeSaved] ∧
    ((rebuild ⟨[], [], 1, [], Option.none⟩ ⟨[], Option.none, Option.none⟩).path =
        EnsurePath.rebuildFail →
      (rebuild ⟨[], [], 1, [], Option.none⟩ ⟨[], Option.none, Option.none⟩).fs.snap =
        Option.none) :=
  rebuild_purges_snapshot_after_invoke ⟨[], [], 1, [], Option.none⟩
    ⟨[], Option.none, Option.none⟩ _ (ensure_no_snap_eq _ _ rfl) (by decide)

/-- C6: with a Snapshot present, a recorded report on disk, and unchanged
requirement files, the package trigger reports drift exactly when the fresh
report differs from the recorded one as a set of lines; when it differs,
`ensure()` takes the rebuild path, and when the two sets coincide the trigger
reports no drift. -/
theorem index_drift_forces_rebuild (ext : Ext) (fs : FS) (snap : Snapshot) (content : Str)
    (hs : fs.snap = Option.some snap)
    (ho : snap.outdated = Option.some content)
    (hreq : requiresHasDiff fs snap = false) :
    packagesUpdated ext.pipStdoutSaved snap =
      Except.ok (!(setEqL (pyReadLinesStripped content)
        (getOutdatedPkgs ext.pipStdoutSaved))) ∧
    (setEqL (pyReadLinesStripped content) (getOutdatedPkgs ext.pipStdoutSaved) = true →
      packagesUpdated ext.pipStdoutSaved snap = Except.ok false) ∧
    (setEqL (pyReadLinesStripped content) (getOutdatedPkgs ext.pipStdoutSaved) = false →
      packagesUpdated ext.pipStdoutSaved snap = Except.ok true ∧
      ∃ out, ensure ext fs = Except.ok out ∧ out.path ≠ EnsurePath.reuse ∧
        Ev.buildInvoke ∈ out.events) := by
  have hpk : packagesUpdated ext.pipStdoutSaved snap =
      Except.ok (!(setEqL (pyReadLinesStripped content)
        (getOutdatedPkgs ext.pipStdoutSaved))) := by
    unfold packagesUpdated
    rw [ho]
  refine ⟨hpk, fun hsame => ?_, fun hdrift => ?_⟩
  · rw [hpk, hsame]
    rfl
  · have hpk' : packagesUpdated ext.pipStdoutSaved snap = Except.ok true := by
      rw [hpk, hdrift]
      rfl
    have hv : venvNotChanged ext fs snap = Except.ok false := by
      rw [venvNotChanged_of_nodiff ext fs snap hreq, hpk']
      rfl
    exact ⟨hpk', rebuild ext fs, ensure_rebuild_eq ext fs snap hs hv,
      rebuild_path_ne_reuse ext fs, rebuild_buildInvoke_mem ext fs⟩

/-- Witness for C6: recorded report `p (Current: 1 Latest: 2)`, fresh query
returning nothing — a one-line difference forcing the rebuild path. -/
theorem index_drift_forces_rebuild_witness :
    packagesUpdated [] ⟨[], [], Option.some "p (Current: 1 Latest: 2)".data⟩ =
      Except.ok true ∧
    ∃ out, ensure ⟨[], [], 0, [], Option.none⟩
        ⟨[], Option.some ⟨[], [], Option.some "p (Current: 1 Latest: 2)".data⟩,
          Option.none⟩ = Except.ok out ∧
      out.path ≠ EnsurePath.reuse ∧ Ev.buildInvoke ∈ out.events :=
  (index_drift_forces_rebuild ⟨[], [], 0, [], Option.none⟩
    ⟨[], Option.some ⟨[], [], Option.some "p (Current: 1 Latest: 2)".data⟩, Option.none⟩
    ⟨[], [], Option.some "p (Current: 1 Latest: 2)".data⟩
    "p (Current: 1 Latest: 2)".data
    rfl rfl (by decide)).2.2 (by decide)

/-- C7 counterexample: `outdated.txt` is absent from the snapshot while the
requirement files differ, so the validity check runs but `ensure()` terminates
normally (no propagated error): Python's short-circuiting `or` never opens the
recorded file in that case. -/
theorem missing_outdated_no_error_counterexample :
    (⟨[], Option.some ⟨[], [(['r'], ['x'])], Option.none⟩, Option.none⟩ : FS).snap.isSome
      = true ∧
    ((⟨[], Option.some ⟨[], [(['r'], ['x'])], Option.none⟩, Option.none⟩ : FS).snap.bind
      Snapshot.outdated) = Option.none ∧
    (ensure ⟨[], [], 0, [], Option.none⟩
      ⟨[], Option.some ⟨[], [(['r'], ['x'])], Option.none⟩, Option.none⟩).isOk = true := by
  refine ⟨rfl, rfl, ?_⟩
  decide

/-- C7 (amended): if `outdated.txt` is absent and the requirement files show
no drift (so the recorded report is actually consulted), the check raises an
error that propagates out of `ensure()`; and whenever the file is absent the
detector never answers "still valid" — absence is never treated as an empty
report. -/
theorem missing_outdated_propagates_when_consulted (ext : Ext) (fs : FS) (snap : Snapshot)
    (hs : fs.snap = Option.some snap) (ho : snap.outdated = Option.none) :
    (requiresHasDiff fs snap = false →
      ensure ext fs = Except.error VErr.missingOutdatedFile) ∧
    venvNotChanged ext fs snap ≠ Except.ok true := by
  have hpk : packagesUpdated ext.pipStdoutSaved snap =
      Except.error VErr.missingOutdatedFile := by
    unfold packagesUpdated
    rw [ho]
  constructor
  · intro hreq
    have hv : venvNotChanged ext fs snap = Except.error VErr.missingOutdatedFile := by
      rw [venvNotChanged_of_nodiff ext fs snap hreq, hpk]
    exact ensure_error_eq ext fs snap _ hs hv
  · intro hv
    rcases Bool.eq_false_or_eq_true (requiresHasDiff fs snap) with hreq | hreq
    · rw [venvNotChanged_of_diff ext fs snap hreq] at hv
      simp at hv
    · rw [venvNotChanged_of_nodiff ext fs snap hreq, hpk] at hv
      simp at hv

/-- Witness for the amended C7: empty requirement sets (no drift), missing
`outdated.txt`, and the error propagating out of `ensure()`. -/
theorem missing_outdated_propagates_when_consulted_witness :
    ensure ⟨[], [], 0, [], Option.none⟩
      ⟨[], Option.some ⟨[], [], Option.none⟩, Option.none⟩ =
      Except.error VErr.missingOutdatedFile ∧
    venvNotChanged ⟨[], [], 0, [], Option.none⟩
      ⟨[], Option.some ⟨[], [], Option.none⟩, Option.none⟩
      ⟨[], [], Option.none⟩ ≠ Except.ok true :=
  ⟨(missing_outdated_propagates_when_consulted ⟨[], [], 0, [], Option.none⟩
      ⟨[], Option.some ⟨[], [], Option.none⟩, Option.none⟩ ⟨[], [], Option.none⟩
      rfl rfl).1 (by decide),
   (missing_outdated_propagates_when_consulted ⟨[], [], 0, [], Option.none⟩
      ⟨[], Option.some ⟨[], [], Option.none⟩, Option.none⟩ ⟨[], [], Option.none⟩
      rfl rfl).2⟩

/-- C8: a REUSE run only replaces the live environment with a copy of the
snapshot tree — the snapshot (including its stored requirement files and
recorded report) and the project files are untouched — and running `ensure()`
again on the resulting state with the same oracle yields the exact same REUSE
outcome, leaving the snapshot unaltered. -/
theorem reuse_preserves_snapshot_idempotent (ext : Ext) (fs : FS) (out : EnsureOut)
    (h : ensure ext fs = Except.ok out) (hp : out.path = EnsurePath.reuse) :
    out.fs.snap = fs.snap ∧ out.fs.cwdFiles = fs.cwdFiles ∧
    (∃ snap, fs.snap = Option.some snap ∧
      out.fs.live = Option.some (copyTreeNoPyc snap.tree)) ∧
    ensure ext out.fs = Except.ok out := by
  rcases ensure_cases ext fs out h with ⟨snap, hsnap, hv, hout⟩ | hout
  · subst hout
    refine ⟨rfl, rfl, ⟨snap, hsnap, rfl⟩, ?_⟩
    have hs2 : ({ fs with live := Option.some (copyTreeNoPyc snap.tree) } : FS).snap =
        Option.some snap := hsnap
    have hv2 : venvNotChanged ext
        { fs with live := Option.some (copyTreeNoPyc snap.tree) } snap =
        Except.ok true := hv
    exact ensure_reuse_eq ext _ snap hs2 hv2
  · subst hout
    exact absurd hp (rebuild_path_ne_reuse ext fs)

/-- Witness for C8 at the concrete stable state of the C1 witness. -/
theorem reuse_preserves_snapshot_idempotent_witness :
    (let fs0 : FS :=
      ⟨[(['r'], ['x'])], Option.some ⟨[], [(['r'], ['x'])], Option.some []⟩, Option.none⟩
     let ext0 : Ext := ⟨[], [], 0, [], Option.none⟩
     let out0 : EnsureOut :=
      { fs := { fs0 with live := Option.some (copyTreeNoPyc ([] : Tree)) }
        ret := PyVal.none
        path := EnsurePath.reuse
        events := [Ev.restoreSnap] }
     out0.fs.snap = fs0.snap ∧ out0.fs.cwdFiles = fs0.cwdFiles ∧
      (∃ snap, fs0.snap = Option.some snap ∧
        out0.fs.live = Option.some (copyTreeNoPyc snap.tree)) ∧
      ensure ext0 out0.fs = Except.ok out0) :=
  reuse_preserves_snapshot_idempotent ⟨[], [], 0, [], Option.none⟩
    ⟨[(['r'], ['x'])], Option.some ⟨[], [(['r'], ['x'])], Option.some []⟩, Option.none⟩
    _ (by decide) (by decide)

/-- C9: every normally-terminating `ensure()` run — REUSE, successful rebuild
or failed rebuild — returns the Python value `None`, so the outcome cannot be
read off the return value. -/
theorem ensure_returns_none (ext : Ext) (fs : FS) (out : EnsureOut)
    (h : ensure ext fs = Except.ok out) : out.ret = PyVal.none := by
  rcases ensure_cases ext fs out h with ⟨snap, _, _, hout⟩ | hout
  · rw [hout]
  · rw [hout]
    exact rebuild_ret_none ext fs

/-- Witness for C9 at a concrete rebuild run. -/
theorem ensure_returns_none_witness :
    (rebuild ⟨[], [], 0, [], Option.none⟩ ⟨[], Option.none, Option.none⟩).ret =
      PyVal.none :=
  ensure_returns_none ⟨[], [], 0, [], Option.none⟩ ⟨[], Option.none, Option.none⟩ _
    (ensure_no_snap_eq _ _ rfl)

/-- C10: the recorded report round-trips — writing the query result with
`"\n".join` (as `_save_outdated` does) and reading it back with
readlines-and-strip (as `_packages_updated` does) yields exactly the same
lines; hence a validity check whose fresh query produces the same report as
the one captured at save time reports no package drift. -/
theorem outdated_report_roundtrip_no_drift (rawSave rawCheck : Str) (t : Tree)
    (rf : List (Str × Str))
    (hsame : getOutdatedPkgs rawCheck = getOutdatedPkgs rawSave) :
    pyReadLinesStripped (intercalateC '\n' (getOutdatedPkgs rawSave)) =
      getOutdatedPkgs rawSave ∧
    packagesUpdated rawCheck
      ⟨t, rf, Option.some (intercalateC '\n' (getOutdatedPkgs rawSave))⟩ =
      Except.ok false := by
  refine ⟨outdated_roundtrip rawSave, ?_⟩
  unfold packagesUpdated
  dsimp only
  rw [outdated_roundtrip rawSave, hsame, setEqL_refl]
  rfl

/-- Witness for C10: pip stdout containing one matching line and one
non-matching line; save and check queries agree. -/
theorem outdated_report_roundtrip_no_drift_witness :
    pyReadLinesStripped (intercalateC '\n'
      (getOutdatedPkgs "p (Current: 1 Latest: 2)\nskip this".data)) =
      getOutdatedPkgs "p (Current: 1 Latest: 2)\nskip this".data ∧
    packagesUpdated "p (Current: 1 Latest: 2)\nskip this".data
      ⟨[], [], Option.some (intercalateC '\n'
        (getOutdatedPkgs "p (Current: 1 Latest: 2)\nskip this".data))⟩ =
      Except.ok false :=
  outdated_report_roundtrip_no_drift "p (Current: 1 Latest: 2)\nskip this".data
    "p (Current: 1 Latest: 2)\nskip this".data [] [] rfl

end Venv
